import Mathlib

/-!
Verification of the `ClearingHouseUser` risk engine
(`src/driftpy/clearing_house_user.py`).

The engine computes collateral, liability, margin requirement, leverage and
liquidation eligibility for a margin-trading account.  Data access goes through
accessors that either read a previously populated cache (`set_cache`) or fetch
live from the external ledger.

Modelling choices:
* Python numbers (ints and the floats produced by true division `/`) are
  modelled as exact rationals `ℚ`; the only arithmetic used is `+ - * / abs max`.
* The `async` accessors are modelled as a `DataSource` record of fallible
  lookups; the pair (external `Ledger`, `ClearingHouseUser` state) determines a
  `DataSource` exactly as the Python accessor bodies do (`mkDataSource`).
* `assert self.cache_is_set` failures are the `NotReady` error,
  `raise NotImplementedError` is the `UnsupportedOption` error, and a cached
  list access out of range is the `IndexError` error.
* The pure valuation helpers imported from `driftpy.math.*` and the numeric
  constants from `driftpy.constants.*` are not part of the given source tree.
  They are modelled from the spec: the helpers become the abstract function
  parameters of `MathEnv` (with the signatures the spec describes), and
  `calculate_worst_case_base_asset_amount` and the precision constants get
  concrete spec-modelled definitions below.
-/

namespace Driftpy

/-- Risk regime: Initial vs Maintenance (the `MarginCategory` enum). -/
inductive MarginCategory where
  | Initial
  | Maintenance
  deriving DecidableEq

/-- Direction of a spot balance (the `SpotBalanceType` enum; the source
compares its textual representation, we use the tag directly). -/
inductive SpotBalanceType where
  | Deposit
  | Borrow
  deriving DecidableEq

/-- Modelled from the spec: weight precision constant (`SPOT_WEIGHT_PRECISION`
from `driftpy.constants.numeric_constants`, not in the source tree).  Only its
positivity matters for any claim. -/
def SPOT_WEIGHT_PRECISION : ℚ := 10000

/-- Modelled from the spec: margin precision constant (`MARGIN_PRECISION`). -/
def MARGIN_PRECISION : ℚ := 10000

/-- Modelled from the spec: price precision constant (`PRICE_PRECISION`). -/
def PRICE_PRECISION : ℚ := 1000000

/-- Modelled from the spec: the `AMM_TO_QUOTE_PRECISION_RATIO` constant of the
source (renamed here). -/
def AMM_TO_QUOTE_PRECISION_RAT : ℚ := 10000000

/-- Modelled from the spec: market index 0 always denotes the cash asset
(`QUOTE_ASSET_BANK_INDEX`). -/
def QUOTE_ASSET_BANK_INDEX : ℕ := 0

/-- An oracle price observation; only the `price` field is read by the
engine. -/
structure OracleData where
  price : ℚ
  deriving DecidableEq

/-- An entry of the cached spot-oracle list: `set_cache` stores the literal
constant `1` for the cash market (index 0) and real oracle data otherwise. -/
inductive OracleEntry where
  | one
  | data (d : OracleData)
  deriving DecidableEq

/-- The AMM sub-record of a perp market; the engine reads `amm.oracle`. -/
structure AMM where
  oracle : ℕ
  deriving DecidableEq

/-- A spot market; the engine reads `market_index` and `oracle`. -/
structure SpotMarket where
  market_index : ℕ
  oracle : ℕ
  deriving DecidableEq

/-- A perpetual market; the engine reads `market_index` and `amm.oracle`. -/
structure PerpMarket where
  market_index : ℕ
  amm : AMM
  deriving DecidableEq

/-- A spot position (fields the engine and its helpers consume). -/
structure SpotPosition where
  market_index : ℕ
  scaled_balance : ℚ
  balance_type : SpotBalanceType
  open_bids : ℚ
  open_asks : ℚ
  deriving DecidableEq

/-- A perpetual position (fields the engine and its helpers consume). -/
structure PerpPosition where
  market_index : ℕ
  base_asset_amount : ℚ
  lp_shares : ℚ
  open_bids : ℚ
  open_asks : ℚ
  deriving DecidableEq

/-- The user account under analysis.  `max_margin_rat` is the source's
`max_margin_ratio` field (renamed). -/
structure UserAccount where
  spot_positions : List SpotPosition
  perp_positions : List PerpPosition
  max_margin_rat : ℚ
  being_liquidated : Bool
  deriving DecidableEq

/-- The global state account.  `liquidation_margin_buffer_rat` is the source's
`liquidation_margin_buffer_ratio` field (renamed). -/
structure StateAccount where
  number_of_spot_markets : ℕ
  number_of_markets : ℕ
  liquidation_margin_buffer_rat : ℚ
  deriving DecidableEq

/-- Modelled from the spec: the pure valuation helpers imported from
`driftpy.math.positions`, `driftpy.math.margin` and `driftpy.math.spot_market`,
which are not part of the given source tree.  Each field carries exactly the
signature with which the engine invokes the helper; theorems quantify over
this environment (adding the spec's stated assumptions where needed).
`calculate_market_margin_rat` is the source's `calculate_market_margin_ratio`
(renamed). -/
structure MathEnv where
  is_spot_position_available : SpotPosition → Bool
  get_token_amount : ℚ → SpotMarket → SpotBalanceType → ℚ
  get_spot_liability_value :
    ℚ → OracleEntry → SpotMarket → Option MarginCategory → Option ℚ → ℚ → ℚ
  get_spot_asset_value : ℚ → OracleEntry → SpotMarket → Option MarginCategory → ℚ
  get_worst_case_token_amounts : SpotPosition → SpotMarket → OracleEntry → ℚ × ℚ
  calculate_position_pnl : PerpMarket → PerpPosition → OracleData → Bool → ℚ
  calculate_market_margin_rat : PerpMarket → ℚ → MarginCategory → ℚ

/-- Modelled from the spec: `calculate_worst_case_base_asset_amount(position)`
returns the signed base-asset amount extended by whichever side of resting
open orders would produce the larger absolute exposure. -/
def calculate_worst_case_base_asset_amount (p : PerpPosition) : ℚ :=
  let all_bids_fill := p.base_asset_amount + p.open_bids
  let all_asks_fill := p.base_asset_amount + p.open_asks
  if |all_bids_fill| > |all_asks_fill| then all_bids_fill else all_asks_fill

/-- Errors surfaced by the engine: `NotReady` is the failed
`assert self.cache_is_set`, `UnsupportedOption` is the
`raise NotImplementedError` of `get_unrealized_pnl`, and `IndexError` is an
out-of-range access into a cached list. -/
inductive Err where
  | NotReady
  | UnsupportedOption
  | IndexError
  deriving DecidableEq

/-- The external ledger: the data-providing collaborators
(`get_state_account`, `get_spot_market_account`, `get_perp_market_account`,
`get_oracle_data`, `get_user_account`), already specialised to the fixed
authority and subaccount of one `ClearingHouseUser`. -/
structure Ledger where
  state_account : StateAccount
  spot_market_account : ℕ → SpotMarket
  perp_market_account : ℕ → PerpMarket
  oracle_data : ℕ → OracleData
  user_account : UserAccount

/-- The `self.CACHE` dictionary built by `set_cache`. -/
structure Cache where
  state : StateAccount
  spot_markets : List SpotMarket
  spot_market_oracles : List OracleEntry
  perp_markets : List PerpMarket
  perp_market_oracles : List OracleData
  user : UserAccount

/-- The mutable state of a `ClearingHouseUser`: the mode flag fixed at
construction and the optional cache (`cache = none` models
`cache_is_set = False`, i.e. `set_cache` has not run yet). -/
structure ClearingHouseUser where
  use_cache : Bool
  cache : Option Cache

/-- `__init__`: the cache starts unset. -/
def ClearingHouseUser.init (use_cache : Bool) : ClearingHouseUser :=
  { use_cache := use_cache, cache := none }

/-- `set_cache`: snapshot the state account, every spot market, every perp
market, each market's oracle datum (the literal `1` for spot market 0) and the
user account from the ledger. -/
def set_cache (l : Ledger) (s : ClearingHouseUser) : ClearingHouseUser :=
  let state := l.state_account
  let spot_markets := (List.range state.number_of_spot_markets).map
    (fun i => l.spot_market_account i)
  let spot_market_oracles := (List.range state.number_of_spot_markets).map
    (fun i =>
      if i = 0 then OracleEntry.one
      else OracleEntry.data (l.oracle_data (l.spot_market_account i).oracle))
  let perp_markets := (List.range state.number_of_markets).map
    (fun i => l.perp_market_account i)
  let perp_market_oracles := (List.range state.number_of_markets).map
    (fun i => l.oracle_data (l.perp_market_account i).amm.oracle)
  let c : Cache :=
    { state := state
      spot_markets := spot_markets
      spot_market_oracles := spot_market_oracles
      perp_markets := perp_markets
      perp_market_oracles := perp_market_oracles
      user := l.user_account }
  { s with cache := some c }

/-- The accessor interface the aggregator consumes: `get_state`,
`get_spot_market`, `get_perp_market`, `get_spot_oracle_data`,
`get_perp_oracle_data`, `get_user`. -/
structure DataSource where
  get_state : Except Err StateAccount
  get_spot_market : ℕ → Except Err SpotMarket
  get_perp_market : ℕ → Except Err PerpMarket
  get_spot_oracle_data : SpotMarket → Except Err OracleEntry
  get_perp_oracle_data : PerpMarket → Except Err OracleData
  get_user : Except Err UserAccount

/-- Python list indexing into a cached list. -/
def listFetch {α : Type} (xs : List α) (i : ℕ) : Except Err α :=
  match xs.get? i with
  | some x => Except.ok x
  | none => Except.error Err.IndexError

/-- The six accessors of `ClearingHouseUser`: in cached mode they assert the
cache is set (failing with `NotReady` otherwise) and read the cache, in live
mode they fetch from the ledger. -/
def mkDataSource (l : Ledger) (s : ClearingHouseUser) : DataSource where
  get_state :=
    if s.use_cache then
      match s.cache with
      | some c => Except.ok c.state
      | none => Except.error Err.NotReady
    else Except.ok l.state_account
  get_spot_market := fun i =>
    if s.use_cache then
      match s.cache with
      | some c => listFetch c.spot_markets i
      | none => Except.error Err.NotReady
    else Except.ok (l.spot_market_account i)
  get_perp_market := fun i =>
    if s.use_cache then
      match s.cache with
      | some c => listFetch c.perp_markets i
      | none => Except.error Err.NotReady
    else Except.ok (l.perp_market_account i)
  get_spot_oracle_data := fun m =>
    if s.use_cache then
      match s.cache with
      | some c => listFetch c.spot_market_oracles m.market_index
      | none => Except.error Err.NotReady
    else Except.ok (OracleEntry.data (l.oracle_data m.oracle))
  get_perp_oracle_data := fun m =>
    if s.use_cache then
      match s.cache with
      | some c => listFetch c.perp_market_oracles m.market_index
      | none => Except.error Err.NotReady
    else Except.ok (l.oracle_data m.amm.oracle)
  get_user :=
    if s.use_cache then
      match s.cache with
      | some c => Except.ok c.user
      | none => Except.error Err.NotReady
    else Except.ok l.user_account

/-- A live-mode `ClearingHouseUser` over ledger `l`: every accessor fetches
the current ledger value. -/
def liveSource (l : Ledger) : DataSource :=
  mkDataSource l (ClearingHouseUser.init false)

/-- `get_spot_market_liability`: sum spot liability value over the user's spot
positions (the Python `for` loop with `continue`s becomes a monadic fold). -/
def get_spot_market_liability (env : MathEnv) (src : DataSource)
    (market_index : Option ℕ) (margin_category : Option MarginCategory)
    (liquidation_buffer : Option ℚ) (include_open_orders : Bool) :
    Except Err ℚ := do
  let user ← src.get_user
  user.spot_positions.foldlM (fun total_liability position => do
    if env.is_spot_position_available position
        || market_index.elim false (fun mi => position.market_index != mi) then
      pure total_liability
    else do
      let spot_market ← src.get_spot_market position.market_index
      if position.market_index = QUOTE_ASSET_BANK_INDEX then
        if position.balance_type = SpotBalanceType.Borrow then
          let token_amount :=
            env.get_token_amount position.scaled_balance spot_market
              position.balance_type
          let weight :=
            if margin_category = some MarginCategory.Initial then
              max SPOT_WEIGHT_PRECISION user.max_margin_rat
            else SPOT_WEIGHT_PRECISION
          pure (total_liability + token_amount * weight / SPOT_WEIGHT_PRECISION)
        else
          pure total_liability
      else do
        let oracle_data ← src.get_spot_oracle_data spot_market
        if !include_open_orders then
          if position.balance_type = SpotBalanceType.Borrow then
            let token_amount :=
              env.get_token_amount position.scaled_balance spot_market
                position.balance_type
            let liability_value :=
              env.get_spot_liability_value token_amount oracle_data spot_market
                margin_category liquidation_buffer user.max_margin_rat
            pure (total_liability + liability_value)
          else
            pure total_liability
        else
          let wc := env.get_worst_case_token_amounts position spot_market oracle_data
          let total_liability :=
            if wc.1 < 0 then
              total_liability +
                env.get_spot_liability_value |wc.1| oracle_data spot_market
                  margin_category liquidation_buffer user.max_margin_rat
            else total_liability
          let total_liability :=
            if wc.2 < 0 then
              let weight :=
                if margin_category = some MarginCategory.Initial then
                  max SPOT_WEIGHT_PRECISION user.max_margin_rat
                else SPOT_WEIGHT_PRECISION
              total_liability + |wc.2| * weight / SPOT_WEIGHT_PRECISION
            else total_liability
          pure total_liability) 0

/-- `get_total_perp_positon` (the source's spelling): sum the (optionally
margin-weighted) perp position values over the user's perp positions.  The
source also contains a no-op branch `if position.lp_shares > 0: pass`. -/
def get_total_perp_positon (env : MathEnv) (src : DataSource)
    (margin_category : Option MarginCategory) (liquidation_buffer : Option ℚ)
    (include_open_orders : Bool) : Except Err ℚ := do
  let user ← src.get_user
  user.perp_positions.foldlM (fun unrealized_pnl position => do
    let market ← src.get_perp_market position.market_index
    let oracle_data ← src.get_perp_oracle_data market
    let price := oracle_data.price
    let base_asset_amount :=
      if include_open_orders then calculate_worst_case_base_asset_amount position
      else position.base_asset_amount
    let base_value :=
      |base_asset_amount| * price / ( AMM_TO_QUOTE_PRECISION_RAT * PRICE_PRECISION)
    let base_value :=
      match margin_category with
      | some mc =>
        let margin_rat :=
          env.calculate_market_margin_rat market |base_asset_amount| mc
        let margin_rat :=
          if mc = MarginCategory.Initial then max margin_rat user.max_margin_rat
          else margin_rat
        let margin_rat :=
          match liquidation_buffer with
          | some buffer => margin_rat + buffer
          | none => margin_rat
        base_value * margin_rat / MARGIN_PRECISION
      | none => base_value
    pure (unrealized_pnl + base_value)) 0

/-- `get_unrealized_pnl`: sum per-position pnl; a non-null
`with_weight_margin_category` raises (inside the loop, after the per-position
pnl is computed). -/
def get_unrealized_pnl (env : MathEnv) (src : DataSource) (with_funding : Bool)
    (market_index : Option ℕ)
    (with_weight_margin_category : Option MarginCategory) : Except Err ℚ := do
  let user ← src.get_user
  user.perp_positions.foldlM (fun unrealized_pnl position => do
    if market_index.elim false (fun mi => position.market_index != mi) then
      pure unrealized_pnl
    else do
      let market ← src.get_perp_market position.market_index
      let oracle_data ← src.get_perp_oracle_data market
      let position_unrealized_pnl :=
        env.calculate_position_pnl market position oracle_data with_funding
      if with_weight_margin_category.isSome then
        Except.error Err.UnsupportedOption
      else
        pure (unrealized_pnl + position_unrealized_pnl)) 0

/-- `get_spot_market_asset_value`: sum spot asset value over the user's spot
positions; a cash-market (index 0) position contributes its token amount
directly. -/
def get_spot_market_asset_value (env : MathEnv) (src : DataSource)
    (margin_category : Option MarginCategory) (include_open_orders : Bool)
    (market_index : Option ℕ) : Except Err ℚ := do
  let user ← src.get_user
  user.spot_positions.foldlM (fun total_value position => do
    if env.is_spot_position_available position
        || market_index.elim false (fun mi => position.market_index != mi) then
      pure total_value
    else do
      let spot_market ← src.get_spot_market position.market_index
      if position.market_index = QUOTE_ASSET_BANK_INDEX then
        let spot_token_value :=
          env.get_token_amount position.scaled_balance spot_market
            position.balance_type
        pure (total_value + spot_token_value)
      else do
        let oracle_data ← src.get_spot_oracle_data spot_market
        if !include_open_orders then
          if position.balance_type = SpotBalanceType.Deposit then
            let token_amount :=
              env.get_token_amount position.scaled_balance spot_market
                position.balance_type
            let asset_value :=
              env.get_spot_asset_value token_amount oracle_data spot_market
                margin_category
            pure (total_value + asset_value)
          else
            pure total_value
        else
          let wc := env.get_worst_case_token_amounts position spot_market oracle_data
          let total_value :=
            if wc.1 > 0 then
              total_value +
                env.get_spot_asset_value wc.1 oracle_data spot_market margin_category
            else total_value
          let total_value :=
            if wc.2 > 0 then total_value + wc.2 else total_value
          pure total_value) 0

/-- `get_margin_requirement`: perp liability plus spot liability, both with
open orders included. -/
def get_margin_requirement (env : MathEnv) (src : DataSource)
    (margin_category : Option MarginCategory) (liquidation_buffer : Option ℚ) :
    Except Err ℚ := do
  let perp_liability ←
    get_total_perp_positon env src margin_category liquidation_buffer true
  let spot_liability ←
    get_spot_market_liability env src none margin_category liquidation_buffer true
  pure (perp_liability + spot_liability)

/-- `get_total_collateral`: spot asset value (open orders included) plus
unrealized pnl with funding; the margin category is forwarded to
`get_unrealized_pnl` as `with_weight_margin_category`. -/
def get_total_collateral (env : MathEnv) (src : DataSource)
    (margin_category : Option MarginCategory) : Except Err ℚ := do
  let spot_collateral ←
    get_spot_market_asset_value env src margin_category true none
  let pnl ← get_unrealized_pnl env src true none margin_category
  pure (spot_collateral + pnl)

/-- `get_free_collateral`: total collateral minus initial margin requirement,
clamped at 0. -/
def get_free_collateral (env : MathEnv) (src : DataSource) : Except Err ℚ := do
  let total_collateral ← get_total_collateral env src none
  let init_margin_req ←
    get_margin_requirement env src (some MarginCategory.Initial) (some 0)
  pure (max 0 (total_collateral - init_margin_req))

/-- `can_be_liquidated`: total collateral strictly below the maintenance
margin requirement, with the global liquidation margin buffer applied only
when the account is flagged `being_liquidated`. -/
def can_be_liquidated (env : MathEnv) (src : DataSource) : Except Err Bool := do
  let total_collateral ← get_total_collateral env src none
  let user ← src.get_user
  let liquidation_buffer ←
    if user.being_liquidated then do
      let st ← src.get_state
      pure (some st.liquidation_margin_buffer_rat)
    else
      pure (none : Option ℚ)
  let maintenance_req ←
    get_margin_requirement env src (some MarginCategory.Maintenance)
      liquidation_buffer
  pure (decide (total_collateral < maintenance_req))

/-- `get_leverage`: margin requirement in basis points of total collateral,
0 when either operand is 0. -/
def get_leverage (env : MathEnv) (src : DataSource)
    (margin_category : Option MarginCategory) : Except Err ℚ := do
  let total_liability ← get_margin_requirement env src margin_category none
  let total_asset_value ← get_total_collateral env src margin_category
  if total_asset_value = 0 ∨ total_liability = 0 then
    pure 0
  else
    pure (total_liability * 10000 / total_asset_value)

/-- The pure value of one loop iteration of `get_total_perp_positon` over live
data: reading the same ledger fields the loop body reads. -/
def perpStep (env : MathEnv) (l : Ledger) (margin_category : Option MarginCategory)
    (liquidation_buffer : Option ℚ) (include_open_orders : Bool)
    (b : ℚ) (position : PerpPosition) : ℚ :=
  let market := l.perp_market_account position.market_index
  let price := (l.oracle_data market.amm.oracle).price
  let base_asset_amount :=
    if include_open_orders then calculate_worst_case_base_asset_amount position
    else position.base_asset_amount
  let base_value :=
    |base_asset_amount| * price / ( AMM_TO_QUOTE_PRECISION_RAT * PRICE_PRECISION)
  let base_value :=
    match margin_category with
    | some mc =>
      let margin_rat :=
        env.calculate_market_margin_rat market |base_asset_amount| mc
      let margin_rat :=
        if mc = MarginCategory.Initial then
          max margin_rat l.user_account.max_margin_rat
        else margin_rat
      let margin_rat :=
        match liquidation_buffer with
        | some buffer => margin_rat + buffer
        | none => margin_rat
      base_value * margin_rat / MARGIN_PRECISION
    | none => base_value
  b + base_value

/-- The pure value of one loop iteration of `get_spot_market_liability` over
live data. -/
def spotLiabStep (env : MathEnv) (l : Ledger) (market_index : Option ℕ)
    (margin_category : Option MarginCategory) (liquidation_buffer : Option ℚ)
    (include_open_orders : Bool) (b : ℚ) (position : SpotPosition) : ℚ :=
  if env.is_spot_position_available position
      || market_index.elim false (fun mi => position.market_index != mi) then
    b
  else
    let spot_market := l.spot_market_account position.market_index
    if position.market_index = QUOTE_ASSET_BANK_INDEX then
      if position.balance_type = SpotBalanceType.Borrow then
        let token_amount :=
          env.get_token_amount position.scaled_balance spot_market
            position.balance_type
        let weight :=
          if margin_category = some MarginCategory.Initial then
            max SPOT_WEIGHT_PRECISION l.user_account.max_margin_rat
          else SPOT_WEIGHT_PRECISION
        b + token_amount * weight / SPOT_WEIGHT_PRECISION
      else b
    else
      let oracle_data := OracleEntry.data (l.oracle_data spot_market.oracle)
      if !include_open_orders then
        if position.balance_type = SpotBalanceType.Borrow then
          b + env.get_spot_liability_value
              (env.get_token_amount position.scaled_balance spot_market
                position.balance_type)
              oracle_data spot_market margin_category liquidation_buffer
              l.user_account.max_margin_rat
        else b
      else
        let wc := env.get_worst_case_token_amounts position spot_market oracle_data
        let b :=
          if wc.1 < 0 then
            b + env.get_spot_liability_value |wc.1| oracle_data spot_market
                margin_category liquidation_buffer l.user_account.max_margin_rat
          else b
        if wc.2 < 0 then
          let weight :=
            if margin_category = some MarginCategory.Initial then
              max SPOT_WEIGHT_PRECISION l.user_account.max_margin_rat
            else SPOT_WEIGHT_PRECISION
          b + |wc.2| * weight / SPOT_WEIGHT_PRECISION
        else b

/-- The pure value of one loop iteration of `get_spot_market_asset_value` over
live data. -/
def spotAssetStep (env : MathEnv) (l : Ledger)
    (margin_category : Option MarginCategory) (include_open_orders : Bool)
    (market_index : Option ℕ) (b : ℚ) (position : SpotPosition) : ℚ :=
  if env.is_spot_position_available position
      || market_index.elim false (fun mi => position.market_index != mi) then
    b
  else
    let spot_market := l.spot_market_account position.market_index
    if position.market_index = QUOTE_ASSET_BANK_INDEX then
      b + env.get_token_amount position.scaled_balance spot_market
            position.balance_type
    else
      let oracle_data := OracleEntry.data (l.oracle_data spot_market.oracle)
      if !include_open_orders then
        if position.balance_type = SpotBalanceType.Deposit then
          b + env.get_spot_asset_value
              (env.get_token_amount position.scaled_balance spot_market
                position.balance_type)
              oracle_data spot_market margin_category
        else b
      else
        let wc := env.get_worst_case_token_amounts position spot_market oracle_data
        let b :=
          if wc.1 > 0 then
            b + env.get_spot_asset_value wc.1 oracle_data spot_market margin_category
          else b
        if wc.2 > 0 then b + wc.2 else b

/-- The pure value of one loop iteration of `get_unrealized_pnl` over live
data when `with_weight_margin_category` is null. -/
def pnlStep (env : MathEnv) (l : Ledger) (with_funding : Bool)
    (market_index : Option ℕ) (b : ℚ) (position : PerpPosition) : ℚ :=
  if market_index.elim false (fun mi => position.market_index != mi) then b
  else
    let market := l.perp_market_account position.market_index
    let oracle_data := l.oracle_data market.amm.oracle
    b + env.calculate_position_pnl market position oracle_data with_funding

/-- A ledger whose user account holds the given perp positions but is
otherwise unchanged: the "all other fields and market data equal" side of a
noninterference comparison. -/
def withPerpPositions (l : Ledger) (ps : List PerpPosition) : Ledger :=
  { l with user_account := { l.user_account with perp_positions := ps } }

/-- A concrete instantiation of the abstract helper environment, used to
evaluate the engine on concrete inputs.  It satisfies the spec-side
assumptions of the theorems below: token amounts are absolute values, the
Initial margin ratio (2) is stricter than the Maintenance one (1), and the
spot liability value does not decrease from Maintenance to Initial. -/
def testEnv : MathEnv where
  is_spot_position_available := fun p =>
    p.scaled_balance == 0 && p.open_bids == 0 && p.open_asks == 0
  get_token_amount := fun sb _ _ => |sb|
  get_spot_liability_value := fun t _ _ _ _ _ => t
  get_spot_asset_value := fun t _ _ _ => t
  get_worst_case_token_amounts := fun p _ _ =>
    (p.scaled_balance + p.open_bids, -p.open_asks)
  calculate_position_pnl := fun _ _ _ _ => 0
  calculate_market_margin_rat := fun _ _ mc =>
    match mc with
    | MarginCategory.Initial => 2
    | MarginCategory.Maintenance => 1

/-- A user account with no positions. -/
def emptyUser : UserAccount :=
  { spot_positions := []
    perp_positions := []
    max_margin_rat := 0
    being_liquidated := false }

/-- A ledger with one spot market, one perp market, unit oracle prices and an
empty user account. -/
def emptyLedger : Ledger :=
  { state_account :=
      { number_of_spot_markets := 1
        number_of_markets := 1
        liquidation_margin_buffer_rat := 0 }
    spot_market_account := fun i => { market_index := i, oracle := 0 }
    perp_market_account := fun i => { market_index := i, amm := { oracle := 1 } }
    oracle_data := fun _ => { price := 1 }
    user_account := emptyUser }

/-- A perp position with base-asset amount 5 and no open orders. -/
def perpPos : PerpPosition :=
  { market_index := 0
    base_asset_amount := 5
    lp_shares := 0
    open_bids := 0
    open_asks := 0 }

/-- A ledger whose user holds exactly one perp position. -/
def perpLedger : Ledger := withPerpPositions emptyLedger [perpPos]

/-- A cash-market (index 0) borrow position of scaled balance 100. -/
def borrowPos : SpotPosition :=
  { market_index := 0
    scaled_balance := 100
    balance_type := SpotBalanceType.Borrow
    open_bids := 0
    open_asks := 0 }

/-- A ledger whose user holds exactly one cash-market borrow position. -/
def borrowLedger : Ledger :=
  { emptyLedger with
      user_account := { emptyUser with spot_positions := [borrowPos] } }

/-! ### Generic lemmas about the error monad and folds -/

theorem ok_bind {α β : Type} (a : α) (f : α → Except Err β) :
    (Except.ok a >>= f) = f a := rfl

theorem pure_ok {α : Type} (a : α) : (pure a : Except Err α) = Except.ok a := rfl

theorem error_bind {α β : Type} (e : Err) (f : α → Except Err β) :
    ((Except.error e : Except Err α) >>= f) = Except.error e := rfl

theorem foldlM_cons_eq {α β : Type} (f : β → α → Except Err β) (b : β) (a : α)
    (l : List α) :
    List.foldlM f b (a :: l) = f b a >>= fun s => List.foldlM f s l := by
  simp [List.foldlM_cons]

/-- A monadic fold whose every step succeeds with a pure value computes the
pure fold. -/
theorem foldlM_of_pure {α : Type} (f : ℚ → α → Except Err ℚ) (g : ℚ → α → ℚ)
    (h : ∀ b a, f b a = Except.ok (g b a)) :
    ∀ (xs : List α) (b : ℚ), List.foldlM f b xs = Except.ok (List.foldl g b xs) := by
  intro xs
  induction xs with
  | nil => intro b; rfl
  | cons a t ih =>
    intro b
    rw [foldlM_cons_eq, h b a, ok_bind, List.foldl_cons, ih]

/-- Pure folds compare pointwise when their steps compare pointwise. -/
theorem foldl_mono {α : Type} (f g : ℚ → α → ℚ)
    (h : ∀ b b' a, b' ≤ b → g b' a ≤ f b a) :
    ∀ (xs : List α) (b b' : ℚ), b' ≤ b → List.foldl g b' xs ≤ List.foldl f b xs := by
  intro xs
  induction xs with
  | nil => intro b b' hb; simpa using hb
  | cons a t ih =>
    intro b b' hb
    rw [List.foldl_cons, List.foldl_cons]
    exact ih _ _ (h b b' a hb)

/-- Replacing one list element by a step-equivalent one leaves a pure fold
unchanged. -/
theorem foldl_set {α : Type} (f : ℚ → α → ℚ) :
    ∀ (xs : List α) (i : ℕ) (x : α),
      (∀ b a, xs.get? i = some a → f b x = f b a) →
      ∀ b, List.foldl f b (xs.set i x) = List.foldl f b xs := by
  intro xs
  induction xs with
  | nil => intro i x _ b; rfl
  | cons a t ih =>
    intro i x h b
    cases i with
    | zero =>
      rw [List.set_cons_zero, List.foldl_cons, List.foldl_cons, h b a rfl]
    | succ j =>
      rw [List.set_cons_succ, List.foldl_cons, List.foldl_cons]
      exact ih j x (fun b' a' ha' => h b' a' (by simpa using ha')) (f b a)

/-! ### Closed forms of the aggregator loops over live data -/

theorem get_user_live (l : Ledger) :
    (liveSource l).get_user = Except.ok l.user_account := rfl

theorem get_state_live (l : Ledger) :
    (liveSource l).get_state = Except.ok l.state_account := rfl

theorem get_spot_market_live (l : Ledger) (i : ℕ) :
    (liveSource l).get_spot_market i = Except.ok (l.spot_market_account i) := rfl

theorem get_perp_market_live (l : Ledger) (i : ℕ) :
    (liveSource l).get_perp_market i = Except.ok (l.perp_market_account i) := rfl

theorem get_spot_oracle_data_live (l : Ledger) (m : SpotMarket) :
    (liveSource l).get_spot_oracle_data m =
      Except.ok (OracleEntry.data (l.oracle_data m.oracle)) := rfl

theorem get_perp_oracle_data_live (l : Ledger) (m : PerpMarket) :
    (liveSource l).get_perp_oracle_data m =
      Except.ok (l.oracle_data m.amm.oracle) := rfl

theorem get_total_perp_positon_live (env : MathEnv) (l : Ledger)
    (mc : Option MarginCategory) (lb : Option ℚ) (ioo : Bool) :
    get_total_perp_positon env (liveSource l) mc lb ioo =
      Except.ok (List.foldl (perpStep env l mc lb ioo) 0
        l.user_account.perp_positions) := by
  show Except.ok l.user_account >>= _ = _
  rw [ok_bind]
  exact foldlM_of_pure _ _ (fun b p => rfl) _ _

theorem get_spot_market_liability_live (env : MathEnv) (l : Ledger)
    (mi : Option ℕ) (mc : Option MarginCategory) (lb : Option ℚ) (ioo : Bool) :
    get_spot_market_liability env (liveSource l) mi mc lb ioo =
      Except.ok (List.foldl (spotLiabStep env l mi mc lb ioo) 0
        l.user_account.spot_positions) := by
  show Except.ok l.user_account >>= _ = _
  rw [ok_bind]
  refine foldlM_of_pure _ _ (fun b p => ?_) _ _
  simp only [get_spot_market_live, get_spot_oracle_data_live, ok_bind, spotLiabStep]
  split_ifs <;> rfl

theorem get_spot_market_asset_value_live (env : MathEnv) (l : Ledger)
    (mc : Option MarginCategory) (ioo : Bool) (mi : Option ℕ) :
    get_spot_market_asset_value env (liveSource l) mc ioo mi =
      Except.ok (List.foldl (spotAssetStep env l mc ioo mi) 0
        l.user_account.spot_positions) := by
  show Except.ok l.user_account >>= _ = _
  rw [ok_bind]
  refine foldlM_of_pure _ _ (fun b p => ?_) _ _
  simp only [get_spot_market_live, get_spot_oracle_data_live, ok_bind, spotAssetStep]
  split_ifs <;> rfl

theorem get_unrealized_pnl_live_unweighted (env : MathEnv) (l : Ledger)
    (wf : Bool) (mi : Option ℕ) :
    get_unrealized_pnl env (liveSource l) wf mi none =
      Except.ok (List.foldl (pnlStep env l wf mi) 0
        l.user_account.perp_positions) := by
  show Except.ok l.user_account >>= _ = _
  rw [ok_bind]
  refine foldlM_of_pure _ _ (fun b p => ?_) _ _
  simp only [get_perp_market_live, get_perp_oracle_data_live, ok_bind, pnlStep]
  split_ifs
  any_goals rfl
  all_goals simp_all

theorem get_margin_requirement_live (env : MathEnv) (l : Ledger)
    (mc : Option MarginCategory) (lb : Option ℚ) :
    get_margin_requirement env (liveSource l) mc lb =
      Except.ok
        (List.foldl (perpStep env l mc lb true) 0 l.user_account.perp_positions
          + List.foldl (spotLiabStep env l none mc lb true) 0
              l.user_account.spot_positions) := by
  unfold get_margin_requirement
  rw [get_total_perp_positon_live, ok_bind, get_spot_market_liability_live, ok_bind]
  rfl

theorem get_total_collateral_live_unweighted (env : MathEnv) (l : Ledger) :
    get_total_collateral env (liveSource l) none =
      Except.ok
        (List.foldl (spotAssetStep env l none true none) 0
            l.user_account.spot_positions
          + List.foldl (pnlStep env l true none) 0
              l.user_account.perp_positions) := by
  unfold get_total_collateral
  rw [get_spot_market_asset_value_live, ok_bind,
    get_unrealized_pnl_live_unweighted, ok_bind]
  rfl

/-! ### Claims -/

/-- C3: for every data source and margin category, once the margin
requirement evaluates to `mr` and the total collateral to `tc`,
`get_leverage` returns `mr * 10000 / tc`, and returns 0 whenever either
operand is 0 (so in particular both being 0 yields 0, not a division
fault). -/
theorem c3_get_leverage_formula (env : MathEnv) (src : DataSource)
    (mc : Option MarginCategory) (mr tc : ℚ)
    (hmr : get_margin_requirement env src mc none = Except.ok mr)
    (htc : get_total_collateral env src mc = Except.ok tc) :
    get_leverage env src mc =
      Except.ok (if tc = 0 ∨ mr = 0 then 0 else mr * 10000 / tc) := by
  unfold get_leverage
  rw [hmr, ok_bind, htc, ok_bind]
  split_ifs <;> rfl

/-- C3 witness: an account with no positions has margin requirement 0 and
total collateral 0, and `get_leverage` returns 0 for it. -/
theorem c3_witness :
    get_leverage testEnv (liveSource emptyLedger) none = Except.ok 0 := by
  have h := c3_get_leverage_formula testEnv (liveSource emptyLedger) none 0 0
    (by rw [get_margin_requirement_live]; simp [emptyLedger, emptyUser])
    (by rw [get_total_collateral_live_unweighted]; simp [emptyLedger, emptyUser])
  simpa using h

/-- C4: for every environment and ledger, `get_free_collateral` succeeds and
returns `max 0 (total_collateral() - margin_requirement(Initial))`, a value
that is never negative. -/
theorem c4_free_collateral (env : MathEnv) (l : Ledger) :
    ∃ tc mr,
      get_total_collateral env (liveSource l) none = Except.ok tc
      ∧ get_margin_requirement env (liveSource l) (some MarginCategory.Initial)
          (some 0) = Except.ok mr
      ∧ get_free_collateral env (liveSource l) = Except.ok (max 0 (tc - mr))
      ∧ 0 ≤ max 0 (tc - mr) := by
  refine ⟨_, _, get_total_collateral_live_unweighted env l,
    get_margin_requirement_live env l (some MarginCategory.Initial) (some 0),
    ?_, le_max_left 0 _⟩
  unfold get_free_collateral
  rw [get_total_collateral_live_unweighted, ok_bind,
    get_margin_requirement_live, ok_bind]
  rfl

/-- C6: for every environment and ledger, `can_be_liquidated` succeeds and
returns exactly the comparison `total_collateral() < margin_requirement
(Maintenance, buffer)`, where the buffer is the global
`liquidation_margin_buffer_ratio` when the account's `being_liquidated` flag
is set and is absent (no additive effect) otherwise. -/
theorem c6_can_be_liquidated (env : MathEnv) (l : Ledger) :
    ∃ tc mq,
      get_total_collateral env (liveSource l) none = Except.ok tc
      ∧ get_margin_requirement env (liveSource l) (some MarginCategory.Maintenance)
          (if l.user_account.being_liquidated then
            some l.state_account.liquidation_margin_buffer_rat
          else none) = Except.ok mq
      ∧ can_be_liquidated env (liveSource l) = Except.ok (decide (tc < mq)) := by
  refine ⟨_, _, get_total_collateral_live_unweighted env l,
    get_margin_requirement_live env l (some MarginCategory.Maintenance) _, ?_⟩
  unfold can_be_liquidated
  rw [get_total_collateral_live_unweighted, ok_bind, get_user_live, ok_bind]
  cases hb : l.user_account.being_liquidated with
  | false =>
    simp only [hb, Bool.false_eq_true, if_false]
    rw [pure_ok, ok_bind, get_margin_requirement_live, ok_bind]
    rfl
  | true =>
    simp only [hb, if_true]
    rw [get_state_live, ok_bind, pure_ok, ok_bind, get_margin_requirement_live,
      ok_bind]
    rfl

/-- C1 (amended): with a non-null `with_weight_margin_category`,
`get_unrealized_pnl` fails with `UnsupportedOption` whenever the account
holds at least one perpetual position, but with no perpetual positions the
error branch is never reached and the call returns the computed value 0. -/
theorem c1_unrealized_pnl_unsupported (env : MathEnv) (l : Ledger) (wf : Bool)
    (mc : MarginCategory) :
    (l.user_account.perp_positions = [] →
      get_unrealized_pnl env (liveSource l) wf none (some mc) = Except.ok 0)
    ∧ (l.user_account.perp_positions ≠ [] →
      get_unrealized_pnl env (liveSource l) wf none (some mc) =
        Except.error Err.UnsupportedOption) := by
  constructor
  · intro h
    unfold get_unrealized_pnl
    rw [get_user_live, ok_bind, h]
    rfl
  · intro h
    obtain ⟨p, t, hpt⟩ := List.exists_cons_of_ne_nil h
    unfold get_unrealized_pnl
    rw [get_user_live, ok_bind, hpt]
    rfl

/-- C1 counterexample: on an account with no perpetual positions,
`get_unrealized_pnl` with a non-null margin category does not fail: it
returns the value 0, refuting "fails regardless of how many perpetual
positions the account holds". -/
theorem c1_counterexample :
    get_unrealized_pnl testEnv (liveSource emptyLedger) true none
        (some MarginCategory.Initial) = Except.ok 0
    ∧ (Except.ok (0 : ℚ) : Except Err ℚ) ≠ Except.error Err.UnsupportedOption := by
  exact ⟨rfl, by simp⟩

/-- C1 witness: on an account with one perpetual position the call does fail
with `UnsupportedOption`. -/
theorem c1_witness :
    get_unrealized_pnl testEnv (liveSource perpLedger) true none
        (some MarginCategory.Initial) = Except.error Err.UnsupportedOption := by
  exact (c1_unrealized_pnl_unsupported testEnv perpLedger true
    MarginCategory.Initial).2 (by simp [perpLedger, withPerpPositions, emptyLedger])

/-- C2 (amended): `get_total_collateral` forwards its margin category to
`get_unrealized_pnl` as `with_weight_margin_category`; whenever the category
is null or the account has no perpetual positions, the call succeeds and
returns `spot_market_asset_value(margin_category, include_open_orders=true)`
plus the unweighted funding-inclusive pnl. -/
theorem c2_total_collateral (env : MathEnv) (l : Ledger)
    (mc : Option MarginCategory)
    (h : mc = none ∨ l.user_account.perp_positions = []) :
    ∃ sv pnl,
      get_spot_market_asset_value env (liveSource l) mc true none = Except.ok sv
      ∧ get_unrealized_pnl env (liveSource l) true none none = Except.ok pnl
      ∧ get_total_collateral env (liveSource l) mc = Except.ok (sv + pnl) := by
  refine ⟨_, _, get_spot_market_asset_value_live env l mc true none,
    get_unrealized_pnl_live_unweighted env l true none, ?_⟩
  unfold get_total_collateral
  rw [get_spot_market_asset_value_live, ok_bind]
  rcases h with h | h
  · subst h
    rw [get_unrealized_pnl_live_unweighted, ok_bind]
    rfl
  · unfold get_unrealized_pnl
    rw [get_user_live, ok_bind, h]
    simp only [h, List.foldl_nil]
    rfl

/-- C2 counterexample: on an account with one perpetual position and
`margin_category = Initial`, `get_total_collateral` does not succeed: it
fails with `UnsupportedOption`, refuting "for every margin_category argument
... it succeeds". -/
theorem c2_counterexample :
    get_total_collateral testEnv (liveSource perpLedger)
        (some MarginCategory.Initial) = Except.error Err.UnsupportedOption
    ∧ ∀ v : ℚ, (Except.error Err.UnsupportedOption : Except Err ℚ) ≠ Except.ok v := by
  exact ⟨rfl, fun v => by simp⟩

/-- C2 witness: with a null margin category the formula holds on a concrete
account. -/
theorem c2_witness :
    get_total_collateral testEnv (liveSource borrowLedger) none =
      Except.ok 100 := by
  obtain ⟨sv, pnl, hsv, hpnl, htc⟩ :=
    c2_total_collateral testEnv borrowLedger none (Or.inl rfl)
  rw [get_spot_market_asset_value_live] at hsv
  rw [get_unrealized_pnl_live_unweighted] at hpnl
  have h1 : sv = 100 := by
    have hx := (Except.ok.injEq _ _).mp hsv
    rw [← hx]
    norm_num [borrowLedger, emptyLedger, emptyUser, borrowPos, spotAssetStep,
      testEnv, QUOTE_ASSET_BANK_INDEX]
  have h2 : pnl = 0 := by
    have hx := (Except.ok.injEq _ _).mp hpnl
    rw [← hx]
    norm_num [borrowLedger, emptyLedger, emptyUser]
  rw [htc, h1, h2]
  norm_num

/-- C7: in cached mode, every accessor called before the first `set_cache`
(the freshly constructed state) fails with `NotReady`, and in cached mode
the accessors are a function of the user state alone: two arbitrary external
ledgers induce the very same accessors, so no accessor ever performs an
implicit fetch against the ledger. -/
theorem c7_cached_accessors (l l' : Ledger) (c : Option Cache) :
    ((mkDataSource l (ClearingHouseUser.init true)).get_state =
        Except.error Err.NotReady
      ∧ (∀ i, (mkDataSource l (ClearingHouseUser.init true)).get_spot_market i =
          Except.error Err.NotReady)
      ∧ (∀ i, (mkDataSource l (ClearingHouseUser.init true)).get_perp_market i =
          Except.error Err.NotReady)
      ∧ (∀ m, (mkDataSource l (ClearingHouseUser.init true)).get_spot_oracle_data m =
          Except.error Err.NotReady)
      ∧ (∀ m, (mkDataSource l (ClearingHouseUser.init true)).get_perp_oracle_data m =
          Except.error Err.NotReady)
      ∧ (mkDataSource l (ClearingHouseUser.init true)).get_user =
          Except.error Err.NotReady)
    ∧ mkDataSource l { use_cache := true, cache := c } =
        mkDataSource l' { use_cache := true, cache := c } :=
  ⟨⟨rfl, fun _ => rfl, fun _ => rfl, fun _ => rfl, fun _ => rfl, rfl⟩, rfl⟩

/-- C9: in cached mode, once one `set_cache` call has populated the cache,
`get_leverage` computes the same result over any two external ledger states:
the result depends only on the cached snapshot. -/
theorem c9_leverage_cache_isolation (env : MathEnv) (mc : Option MarginCategory)
    (l0 l1 l2 : Ledger) (s : ClearingHouseUser) (h : s.use_cache = true) :
    get_leverage env (mkDataSource l1 (set_cache l0 s)) mc =
      get_leverage env (mkDataSource l2 (set_cache l0 s)) mc := by
  obtain ⟨uc, c⟩ := s
  have huc : uc = true := h
  subst huc
  rfl

/-- C9 witness: concrete cache, two different ledgers underneath. -/
theorem c9_witness :
    get_leverage testEnv
        (mkDataSource perpLedger (set_cache emptyLedger
          (ClearingHouseUser.init true))) none =
      get_leverage testEnv
        (mkDataSource borrowLedger (set_cache emptyLedger
          (ClearingHouseUser.init true))) none :=
  c9_leverage_cache_isolation testEnv none emptyLedger perpLedger borrowLedger
    (ClearingHouseUser.init true) rfl

/-- C8 (amended): in `get_spot_market_asset_value`, a position in the
cash-asset market (index 0) contributes exactly its face token amount — no
oracle price and no weight applied (the result is independent of the margin
category and of `include_open_orders`) — regardless of whether its balance
is a deposit or a borrow: the balance direction is only passed through to
the token-amount conversion. -/
theorem c8_cash_market_asset_value (env : MathEnv) (l : Ledger)
    (mc : Option MarginCategory) (ioo : Bool) (p : SpotPosition)
    (hq : p.market_index = QUOTE_ASSET_BANK_INDEX)
    (hav : env.is_spot_position_available p = false)
    (hpos : l.user_account.spot_positions = [p]) :
    get_spot_market_asset_value env (liveSource l) mc ioo none =
      Except.ok (env.get_token_amount p.scaled_balance
        (l.spot_market_account p.market_index) p.balance_type) := by
  rw [get_spot_market_asset_value_live, hpos]
  simp [spotAssetStep, hav, hq]

/-- C8 counterexample: a cash-market borrow position of token amount 100
contributes 100 — not 0 — to `get_spot_market_asset_value`, refuting
"contributes nothing to asset value when it is not a deposit". -/
theorem c8_counterexample :
    get_spot_market_asset_value testEnv (liveSource borrowLedger) none true
        none = Except.ok 100
    ∧ (100 : ℚ) ≠ 0 := by
  constructor
  · rw [get_spot_market_asset_value_live]
    norm_num [borrowLedger, emptyLedger, emptyUser, borrowPos, spotAssetStep,
      testEnv, QUOTE_ASSET_BANK_INDEX]
  · norm_num

/-- C8 witness: the amended statement applied to the concrete cash borrow
position. -/
theorem c8_witness :
    get_spot_market_asset_value testEnv (liveSource borrowLedger) none true
        none = Except.ok (testEnv.get_token_amount borrowPos.scaled_balance
          (borrowLedger.spot_market_account borrowPos.market_index)
          borrowPos.balance_type) :=
  c8_cash_market_asset_value testEnv borrowLedger none true borrowPos rfl
    (by norm_num [testEnv, borrowPos]) rfl

/-- The value of one perp-position loop iteration does not read the
position's `lp_shares` field. -/
theorem perpStep_lp_shares (env : MathEnv) (l : Ledger)
    (mc : Option MarginCategory) (lb : Option ℚ) (ioo : Bool) (b : ℚ)
    (p : PerpPosition) (v : ℚ) :
    perpStep env l mc lb ioo b { p with lp_shares := v } =
      perpStep env l mc lb ioo b p := rfl

/-- C10: `get_total_perp_positon` is insensitive to a position's
liquidity-provider shares: replacing the `lp_shares` field of any one perp
position (all other fields and all market data unchanged) leaves the result
unchanged. -/
theorem c10_lp_shares_noninterference (env : MathEnv) (l : Ledger)
    (mc : Option MarginCategory) (lb : Option ℚ) (ioo : Bool) (i : ℕ)
    (p : PerpPosition) (v : ℚ)
    (hp : l.user_account.perp_positions.get? i = some p) :
    get_total_perp_positon env
        (liveSource (withPerpPositions l
          (l.user_account.perp_positions.set i { p with lp_shares := v })))
        mc lb ioo
      = get_total_perp_positon env (liveSource l) mc lb ioo := by
  rw [get_total_perp_positon_live, get_total_perp_positon_live]
  show Except.ok (List.foldl (perpStep env l mc lb ioo) 0
    (l.user_account.perp_positions.set i { p with lp_shares := v })) = _
  refine congrArg Except.ok ?_
  refine foldl_set _ _ i _ (fun b a ha => ?_) 0
  rw [hp] at ha
  cases ha
  exact perpStep_lp_shares env l mc lb ioo b p v

/-- C10 witness: concrete evaluation with `lp_shares` changed from 0 to 7 on
the single perp position. -/
theorem c10_witness :
    get_total_perp_positon testEnv
        (liveSource (withPerpPositions perpLedger
          (perpLedger.user_account.perp_positions.set 0
            { perpPos with lp_shares := 7 }))) none none false
      = get_total_perp_positon testEnv (liveSource perpLedger) none none false :=
  c10_lp_shares_noninterference testEnv perpLedger none none false 0 perpPos 7 rfl

/-- Pointwise comparison of one perp-position loop iteration between the
Initial and Maintenance regimes, assuming nonnegative oracle prices and an
Initial margin-ratio floor at least as strict as the Maintenance one. -/
theorem perpStep_le (env : MathEnv) (l : Ledger) (lb : Option ℚ)
    (hr : ∀ m baa, env.calculate_market_margin_rat m baa MarginCategory.Maintenance ≤
      env.calculate_market_margin_rat m baa MarginCategory.Initial)
    (hp : ∀ i, 0 ≤ (l.oracle_data i).price) :
    ∀ b b' q, b' ≤ b →
      perpStep env l (some MarginCategory.Maintenance) lb true b' q ≤
        perpStep env l (some MarginCategory.Initial) lb true b q := by
  intro b b' q hb
  have hMM : (MarginCategory.Maintenance = MarginCategory.Initial) = False := by
    simp
  have hII : (MarginCategory.Initial = MarginCategory.Initial) = True := by simp
  have hbv : 0 ≤ |calculate_worst_case_base_asset_amount q| *
      (l.oracle_data (l.perp_market_account q.market_index).amm.oracle).price /
        ( AMM_TO_QUOTE_PRECISION_RAT * PRICE_PRECISION) := by
    apply div_nonneg
    · exact mul_nonneg (abs_nonneg _) (hp _)
    · norm_num [AMM_TO_QUOTE_PRECISION_RAT, PRICE_PRECISION]
  have hMP : (0 : ℚ) < MARGIN_PRECISION := by norm_num [MARGIN_PRECISION]
  cases lb with
  | none =>
    simp only [perpStep, hMM, hII, if_false, if_true, if_pos, if_neg]
    refine add_le_add hb ?_
    refine (div_le_div_iff_of_pos_right hMP).mpr ?_
    refine mul_le_mul_of_nonneg_left ?_ hbv
    exact le_trans (hr _ _) (le_max_left _ _)
  | some buf =>
    simp only [perpStep, hMM, hII, if_false, if_true, if_pos, if_neg]
    refine add_le_add hb ?_
    refine (div_le_div_iff_of_pos_right hMP).mpr ?_
    refine mul_le_mul_of_nonneg_left ?_ hbv
    exact add_le_add_right (le_trans (hr _ _) (le_max_left _ _)) buf

/-- Pointwise comparison of one spot-liability loop iteration between the
Initial and Maintenance regimes, assuming nonnegative token amounts and a
spot liability value at least as high under Initial as under Maintenance. -/
theorem spotLiabStep_le (env : MathEnv) (l : Ledger) (lb : Option ℚ)
    (hl : ∀ t od m lb2 mmr,
      env.get_spot_liability_value t od m (some MarginCategory.Maintenance) lb2 mmr ≤
        env.get_spot_liability_value t od m (some MarginCategory.Initial) lb2 mmr)
    (hta : ∀ sb m bt, 0 ≤ env.get_token_amount sb m bt) :
    ∀ b b' q, b' ≤ b →
      spotLiabStep env l none (some MarginCategory.Maintenance) lb true b' q ≤
        spotLiabStep env l none (some MarginCategory.Initial) lb true b q := by
  intro b b' q hb
  have hOM : (some MarginCategory.Maintenance = some MarginCategory.Initial) =
      False := by simp
  have hOI : (some MarginCategory.Initial = some MarginCategory.Initial) =
      True := by simp
  have hSWP : (0 : ℚ) < SPOT_WEIGHT_PRECISION := by
    norm_num [SPOT_WEIGHT_PRECISION]
  simp only [spotLiabStep, hOM, hOI, if_false, if_true, Option.elim,
    Bool.or_false, Bool.not_true, Bool.false_eq_true]
  split_ifs
  · exact hb
  · refine add_le_add hb ?_
    refine (div_le_div_iff_of_pos_right hSWP).mpr ?_
    exact mul_le_mul_of_nonneg_left (le_max_left _ _) (hta _ _ _)
  · exact hb
  · refine add_le_add (add_le_add hb (hl _ _ _ _ _)) ?_
    refine (div_le_div_iff_of_pos_right hSWP).mpr ?_
    exact mul_le_mul_of_nonneg_left (le_max_left _ _) (abs_nonneg _)
  · refine add_le_add hb ?_
    refine (div_le_div_iff_of_pos_right hSWP).mpr ?_
    exact mul_le_mul_of_nonneg_left (le_max_left _ _) (abs_nonneg _)
  · exact add_le_add hb (hl _ _ _ _ _)
  · exact hb

/-- C5: for identical positions and market data, with Initial weight/ratio
floors at least as strict (pointwise) as Maintenance ones, nonnegative
oracle prices and nonnegative token amounts, the Initial margin requirement
is at least the Maintenance one. -/
theorem c5_initial_ge_maintenance (env : MathEnv) (l : Ledger) (lb : Option ℚ)
    (hr : ∀ m baa, env.calculate_market_margin_rat m baa MarginCategory.Maintenance ≤
      env.calculate_market_margin_rat m baa MarginCategory.Initial)
    (hl : ∀ t od m lb2 mmr,
      env.get_spot_liability_value t od m (some MarginCategory.Maintenance) lb2 mmr ≤
        env.get_spot_liability_value t od m (some MarginCategory.Initial) lb2 mmr)
    (hp : ∀ i, 0 ≤ (l.oracle_data i).price)
    (hta : ∀ sb m bt, 0 ≤ env.get_token_amount sb m bt) :
    ∃ req_init req_maint,
      get_margin_requirement env (liveSource l) (some MarginCategory.Initial) lb =
        Except.ok req_init
      ∧ get_margin_requirement env (liveSource l) (some MarginCategory.Maintenance)
          lb = Except.ok req_maint
      ∧ req_maint ≤ req_init := by
  refine ⟨_, _, get_margin_requirement_live env l _ lb,
    get_margin_requirement_live env l _ lb, ?_⟩
  refine add_le_add ?_ ?_
  · exact foldl_mono _ _ (perpStep_le env l lb hr hp) _ 0 0 le_rfl
  · exact foldl_mono _ _ (spotLiabStep_le env l lb hl hta) _ 0 0 le_rfl

/-- C5 witness: concrete environment (Initial ratio 2 vs Maintenance 1,
liability value identical in both regimes, absolute-value token amounts,
unit prices) on an account with one perp position. -/
theorem c5_witness :
    ∃ req_init req_maint,
      get_margin_requirement testEnv (liveSource perpLedger)
          (some MarginCategory.Initial) (some 0) = Except.ok req_init
      ∧ get_margin_requirement testEnv (liveSource perpLedger)
          (some MarginCategory.Maintenance) (some 0) = Except.ok req_maint
      ∧ req_maint ≤ req_init :=
  c5_initial_ge_maintenance testEnv perpLedger (some 0)
    (fun m baa => by norm_num [testEnv])
    (fun t od m lb2 mmr => le_refl t)
    (fun i => by norm_num [perpLedger, withPerpPositions, emptyLedger])
    (fun sb m bt => abs_nonneg sb)

end Driftpy
